import Mathlib

/-!
# go-pulse: the broadcast / status-polling client

A shallow embedding of `pulse/pulse.go` and `pulse/utils.go`.

* The HTTP client is replaced by a deterministic transport: a function from the
  history of everything the client has done so far (requests issued and sleeps
  performed, the current request last) to the outcome of the current request.
  A scripted transport (a fixed list of canned answers) is one instance.
* Every operation threads that history explicitly, so "how many requests were
  issued" and "how many sleeps were performed" are facts about the returned
  history.
* The polling loop of `MonitorStatus` is unbounded in the source; here it takes
  a fuel argument bounding the number of loop iterations, and an exhausted fuel
  is reported as `none`.
* Output written to the logger by `MultipleMonitorStatus` is not part of the
  history: it reaches neither the transport nor the caller.
-/

set_option linter.dupNamespace false

namespace Pulse

/-! ## Data model -/

/-- Asset is the price record submitted for broadcast (`Price` and `Timestamp`
are `uint64` in the source; no arithmetic is performed on them). -/
structure Asset where
  Symbol : String
  Price : Nat
  Timestamp : Nat
  deriving DecidableEq, Repr

/-- The decoded answer of a broadcast. -/
structure broadcastResponse where
  TxHash : String
  deriving DecidableEq, Repr

/-- The transaction record handed back to callers. -/
structure txHashData where
  TxHash : String
  Status : String
  Message : String
  deriving DecidableEq, Repr

/-- The decoded answer of a status check. -/
structure txStatusResponse where
  Status : String
  deriving DecidableEq, Repr

/-- Options of `New`; `PulseInterval` is a `time.Duration`, a signed count of
nanoseconds. -/
structure Options where
  URL : String
  PulseInterval : Int
  deriving DecidableEq, Repr

def DefaultURL : String := "https://mock-node-wgqbnxruha-as.a.run.app"

/-- Three seconds, in nanoseconds (`3 * time.Second`). -/
def DefaultPulseInterval : Int := 3 * 1000000000

/-! The status and message tables are package-level variables in the source;
nothing in the repository assigns to them, and they are constants here. -/

def StatusConfirmed : String := "CONFIRMED"
def MessageConfirmed : String := "Transaction has been processed and confirmed"
def StatusPending : String := "PENDING"
def MessagePending : String := " Transaction is awaiting processing"
def StatusFailed : String := "FAILED"
def MessageFailed : String := "Transaction failed to process"
def StatusDNE : String := "DNE"
def MessageDNE : String := "Transaction does not exist"

/-- The client: the base URL its HTTP client was configured with, and the
polling interval. -/
structure pulse where
  baseURL : String
  pulse : Int
  deriving DecidableEq, Repr

instance instDecidableEqExcept {ε α : Type} [DecidableEq ε] [DecidableEq α] :
    DecidableEq (Except ε α)
  | .ok a, .ok b =>
    if h : a = b then isTrue (by rw [h]) else isFalse (by intro h1; cases h1; exact h rfl)
  | .error a, .error b =>
    if h : a = b then isTrue (by rw [h]) else isFalse (by intro h1; cases h1; exact h rfl)
  | .ok _, .error _ => isFalse (by intro h; cases h)
  | .error _, .ok _ => isFalse (by intro h; cases h)

/-- Errors, with the wrapping performed by `fmt.Errorf`. -/
inductive Err where
  | validation
  | transport
  | badStatus
  | unmarshal
  | wrap (context : String) (cause : Err)
  deriving DecidableEq, Repr

/-! ## Transport and JSON bodies -/

/-- What a JSON body offers for one string field of the target struct: no
member with that key (or only `null`, which the decoder leaves alone), a
string, or a value of another JSON type (which makes the decoder report a type
error). -/
inductive Field where
  | absent
  | str (s : String)
  | mistyped
  deriving DecidableEq, Repr

/-- A response body as seen by the JSON decoder: either it cannot be decoded
into any struct (not JSON, or neither an object nor `null`), or it is an object
described by what it offers for the three keys the client ever reads. -/
inductive Body where
  | invalid
  | object (tx_hash tx_status message : Field)
  deriving DecidableEq, Repr

/-- Outcome of one HTTP request: the client library reports an error, or a
response with a status code and a body arrives. The client library may itself
decode a successful JSON response into the result struct before the code does;
it fails on the same bodies as the explicit `json.Unmarshal` that follows, so a
body that does not decode ends in an error on either path, and the embedding
reports it at the explicit decoding step. -/
inductive Outcome where
  | failure
  | response (code : Nat) (body : Body)
  deriving DecidableEq, Repr

/-- Observable actions of the client. -/
inductive Event where
  | submit (a : Asset)
  | check (txHash : String)
  | sleep (d : Int)
  deriving DecidableEq, Repr

abbrev Trace := List Event

/-- A deterministic transport: the outcome of the request that is the last
entry of the history. -/
abbrev Transport := Trace → Outcome

/-- Decoding one string field: an absent member keeps the current value. -/
def Field.into (f : Field) (cur : String) : Option String :=
  match f with
  | .absent => some cur
  | .str s => some s
  | .mistyped => none

/-- The call `json.Unmarshal(body, &result)` for `result : broadcastResponse`
(the decoder is the Go standard library, not part of the repository): it fails
on a body that is no JSON object and on a `tx_hash` member of a wrong type;
members other than `tx_hash` are ignored. -/
def unmarshalBroadcast (b : Body) : Option broadcastResponse :=
  match b with
  | .invalid => none
  | .object h _ _ =>
    match h.into "" with
    | none => none
    | some x => some ⟨x⟩

/-- The call `json.Unmarshal(body, &result)` for `result : txStatusResponse`:
only the `tx_status` member is looked at. -/
def unmarshalStatus (b : Body) : Option txStatusResponse :=
  match b with
  | .invalid => none
  | .object _ s _ =>
    match s.into "" with
    | none => none
    | some x => some ⟨x⟩

/-- The call `json.Unmarshal(body, &result)` for `result : txHashData`: all
three members are decoded, and a type error in any of them fails the call. -/
def unmarshalTxHashData (b : Body) : Option txHashData :=
  match b with
  | .invalid => none
  | .object h s m =>
    match h.into "", s.into "", m.into "" with
    | some x, some y, some z => some ⟨x, y, z⟩
    | _, _, _ => none

/-! ## utils.go -/

/-- defineStatus is the helper that defines the status message. -/
def defineStatus (status : String) : String :=
  if status = StatusConfirmed then MessageConfirmed
  else if status = StatusPending then MessagePending
  else if status = StatusFailed then MessageFailed
  else if status = StatusDNE then MessageDNE
  else "Unknown"

/-! ## pulse.go -/

/-- Modelled from the spec: the `Required` rule of the validation library,
which is not part of the repository: a string must be non-empty. -/
def requiredString (s : String) : Bool := s != ""

/-- Modelled from the spec: the `Required` rule of the validation library,
which is not part of the repository: an unsigned integer must be non-zero. -/
def requiredUint (n : Nat) : Bool := n != 0

/-- Validate validates the asset data request: all three fields are required. -/
def Asset.Validate (a : Asset) : Except Err Unit :=
  if requiredString a.Symbol && requiredUint a.Price && requiredUint a.Timestamp then
    .ok ()
  else
    .error .validation

/-- NewPulse returns a client with the default options. -/
def NewPulse : pulse :=
  ⟨DefaultURL, DefaultPulseInterval⟩

/-- New returns a client built from the options (a non-nil `*Options`). -/
def New (opts : Options) : pulse :=
  if opts.URL = "" then
    NewPulse
  else
    let opts : Options :=
      if opts.PulseInterval = 0 then ⟨opts.URL, DefaultPulseInterval⟩ else opts
    ⟨opts.URL, opts.PulseInterval⟩

/-- Broadcast validates the asset, posts it, and decodes the hash. -/
def Broadcast (t : Transport) (asset : Asset) (tr : Trace) :
    Except Err broadcastResponse × Trace :=
  match asset.Validate with
  | .error err => (.error (.wrap "validate failed broadcast_asset" err), tr)
  | .ok _ =>
    let tr1 := tr ++ [Event.submit ⟨asset.Symbol, asset.Price, asset.Timestamp⟩]
    match t tr1 with
    | .failure => (.error (.wrap "request failed broadcast_asset" .transport), tr1)
    | .response code body =>
      if code ≥ 400 then (.error (.wrap "broadcast failed" .badStatus), tr1)
      else
        match unmarshalBroadcast body with
        | none => (.error (.wrap "unmarshal failed broadcast_asset" .unmarshal), tr1)
        | some result => (.ok result, tr1)

/-- The loop of MultipleBroadcast, with the hashes accumulated so far. -/
def MultipleBroadcast.loop (t : Transport) :
    List Asset → List broadcastResponse → Trace → Except Err (List broadcastResponse) × Trace
  | [], result, tr => (.ok result, tr)
  | v :: rest, result, tr =>
    match Broadcast t v tr with
    | (.error err, tr1) => (.error (.wrap "request failed multiple_broadcast" err), tr1)
    | (.ok hash, tr1) => MultipleBroadcast.loop t rest (result ++ [hash]) tr1

/-- MultipleBroadcast broadcasts the assets one after the other. -/
def MultipleBroadcast (t : Transport) (opts : List Asset) (tr : Trace) :
    Except Err (List broadcastResponse) × Trace :=
  MultipleBroadcast.loop t opts [] tr

/-- MonitorStatus polls the status of a hash until it is not pending. The first
argument after the hash bounds the number of loop iterations. -/
def MonitorStatus (t : Transport) (p : pulse) (txHash : String) :
    Nat → Trace → Option (Except Err txHashData × Trace)
  | 0, _ => none
  | fuel + 1, tr =>
    let tr1 := tr ++ [Event.check txHash]
    match t tr1 with
    | .failure => some (.error (.wrap "request failed monitor_status" .transport), tr1)
    | .response code body =>
      if code ≥ 400 then some (.error (.wrap "monitor status failed" .badStatus), tr1)
      else
        match unmarshalStatus body with
        | none => some (.error (.wrap "unmarshal failed monitor_status" .unmarshal), tr1)
        | some result =>
          if result.Status ≠ StatusPending then
            some (.ok ⟨txHash, result.Status, defineStatus result.Status⟩, tr1)
          else
            MonitorStatus t p txHash fuel (tr1 ++ [Event.sleep p.pulse])

/-- The loop of MultipleMonitorStatus, with the records accumulated so far. -/
def MultipleMonitorStatus.loop (t : Transport) (p : pulse) (fuel : Nat) :
    List String → List txHashData → Trace → Option (List txHashData × Trace)
  | [], txsHashData, tr => some (txsHashData, tr)
  | hash :: rest, txsHashData, tr =>
    match MonitorStatus t p hash fuel tr with
    | none => none
    | some (.error _, tr1) => MultipleMonitorStatus.loop t p fuel rest txsHashData tr1
    | some (.ok status, tr1) =>
      MultipleMonitorStatus.loop t p fuel rest
        (txsHashData ++ [⟨hash, status.Status, status.Message⟩]) tr1

/-- MultipleMonitorStatus monitors the hashes one after the other; each
individual monitor gets the same fuel. -/
def MultipleMonitorStatus (t : Transport) (p : pulse) (txsHash : List String) (fuel : Nat)
    (tr : Trace) : Option (List txHashData × Trace) :=
  MultipleMonitorStatus.loop t p fuel txsHash [] tr

/-- BroadcastAndMonitor posts the asset, decodes the answer into a record and
monitors the hash of that record. -/
def BroadcastAndMonitor (t : Transport) (p : pulse) (asset : Asset) (fuel : Nat) (tr : Trace) :
    Option (Except Err txHashData × Trace) :=
  match asset.Validate with
  | .error err => some (.error (.wrap "validate failed broadcast_and_monitor" err), tr)
  | .ok _ =>
    let tr1 := tr ++ [Event.submit ⟨asset.Symbol, asset.Price, asset.Timestamp⟩]
    match t tr1 with
    | .failure => some (.error (.wrap "request failed broadcast_and_monitor" .transport), tr1)
    | .response code body =>
      if code ≥ 400 then some (.error (.wrap "broadcast failed" .badStatus), tr1)
      else
        match unmarshalTxHashData body with
        | none => some (.error (.wrap "unmarshal failed broadcast_and_monitor" .unmarshal), tr1)
        | some result =>
          match MonitorStatus t p result.TxHash fuel tr1 with
          | none => none
          | some (.error err, tr2) =>
            some (.error (.wrap "request failed broadcast_and_monitor" err), tr2)
          | some (.ok status, tr2) =>
            some (.ok ⟨result.TxHash, status.Status, status.Message⟩, tr2)

/-- The loop of MultipleBroadcastAndMonitor, with the records accumulated so
far. -/
def MultipleBroadcastAndMonitor.loop (t : Transport) (p : pulse) (fuel : Nat) :
    List Asset → List txHashData → Trace → Option (Except Err (List txHashData) × Trace)
  | [], result, tr => some (.ok result, tr)
  | v :: rest, result, tr =>
    match BroadcastAndMonitor t p v fuel tr with
    | none => none
    | some (.error err, tr1) =>
      some (.error (.wrap "request failed multiple_broadcast_and_monitor" err), tr1)
    | some (.ok hash, tr1) => MultipleBroadcastAndMonitor.loop t p fuel rest (result ++ [hash]) tr1

/-- MultipleBroadcastAndMonitor runs BroadcastAndMonitor on the assets one
after the other. -/
def MultipleBroadcastAndMonitor (t : Transport) (p : pulse) (assets : List Asset) (fuel : Nat)
    (tr : Trace) : Option (Except Err (List txHashData) × Trace) :=
  MultipleBroadcastAndMonitor.loop t p fuel assets [] tr

/-! ## Observations on histories and concrete transports -/

/-- Number of status-check requests in a history. -/
def checks (tr : Trace) : Nat :=
  tr.countP fun e => match e with | .check _ => true | _ => false

/-- Number of submit requests in a history. -/
def submits (tr : Trace) : Nat :=
  tr.countP fun e => match e with | .submit _ => true | _ => false

/-- Number of sleeps in a history. -/
def sleeps (tr : Trace) : Nat :=
  tr.countP fun e => match e with | .sleep _ => true | _ => false

/-- The history of `k` rounds of polling `txHash` that were answered with a
pending status: a check followed by a sleep of length `d`, `k` times. -/
def pendingRounds (txHash : String) (d : Int) : Nat → Trace
  | 0 => []
  | k + 1 => Event.check txHash :: Event.sleep d :: pendingRounds txHash d k

/-- The outcome is a response with a status code below 400 whose body is
well-formed for the status endpoint and carries status `s`. -/
def answersStatus (o : Outcome) (s : String) : Bool :=
  match o with
  | .failure => false
  | .response code body => decide (code < 400) && decide (unmarshalStatus body = some ⟨s⟩)

/-- The transport answers the first `k` checks of a poll of `h`, started at
history `tr` with interval `d`, with a pending status (status code below 400,
well-formed body). -/
def PendingFor (t : Transport) (h : String) (d : Int) (tr : Trace) (k : Nat) : Prop :=
  ∀ j, j < k →
    answersStatus (t (tr ++ pendingRounds h d j ++ [Event.check h])) StatusPending = true

instance instDecidablePendingFor (t : Transport) (h : String) (d : Int) (tr : Trace) (k : Nat) :
    Decidable (PendingFor t h d tr k) := by
  unfold PendingFor
  exact Nat.decidableBallLT k _

/-- What a caller can tell about a run without looking inside the error: no
result while the run has not returned, else the value (if any) and the
history. -/
def observable {α : Type} (x : Option (Except Err α × Trace)) : Option (Option α × Trace) :=
  x.map fun y => (y.1.toOption, y.2)

/-- The sequential composition of Broadcast and MonitorStatus, as section 4.4
of the specification words it: broadcast, then monitor the hash produced. -/
def broadcastThenMonitor (t : Transport) (p : pulse) (asset : Asset) (fuel : Nat) (tr : Trace) :
    Option (Except Err txHashData × Trace) :=
  match Broadcast t asset tr with
  | (.error err, tr1) => some (.error err, tr1)
  | (.ok hash, tr1) => MonitorStatus t p hash.TxHash fuel tr1

/-- The body offers no value of a wrong JSON type for `tx_status` or
`message`. -/
def Body.plainExtras : Body → Bool
  | .invalid => true
  | .object _ s m => decide (s ≠ .mistyped) && decide (m ≠ .mistyped)

/-- A submit answer whose `tx_status` member is a number, followed by a
CONFIRMED answer of the status endpoint. -/
def mistypedStatusScript : List Outcome :=
  [.response 200 (.object (.str "h") .mistyped .absent),
   .response 200 (.object .absent (.str "CONFIRMED") .absent)]

/-- A submit answer that itself carries `tx_status` and `message` members,
followed by a CONFIRMED answer of the status endpoint. -/
def chattyScript : List Outcome :=
  [.response 200 (.object (.str "h") (.str "FAILED") (.str "made up")),
   .response 200 (.object .absent (.str "CONFIRMED") .absent)]

/-- Broadcast succeeds on each of the assets in turn: started at history `tr`,
the `i`-th asset yields the `i`-th hash of `hs`, each call runs from the
history the previous one left, and the last one leaves `tr2`. -/
def BroadcastsOk (t : Transport) : List Asset → Trace → List broadcastResponse → Trace → Prop
  | [], tr, hs, tr2 => hs = [] ∧ tr2 = tr
  | _ :: _, _, [], _ => False
  | a :: rest, tr, h :: hs, tr2 =>
    (Broadcast t a tr).1 = .ok h ∧ BroadcastsOk t rest (Broadcast t a tr).2 hs tr2

instance instDecidableBroadcastsOk (t : Transport) :
    ∀ (assets : List Asset) (tr : Trace) (hs : List broadcastResponse) (tr2 : Trace),
      Decidable (BroadcastsOk t assets tr hs tr2)
  | [], tr, hs, tr2 => by unfold BroadcastsOk; exact inferInstance
  | _ :: _, _, [], _ => by unfold BroadcastsOk; exact inferInstance
  | a :: rest, tr, h :: hs, tr2 => by
    unfold BroadcastsOk
    have := instDecidableBroadcastsOk t rest (Broadcast t a tr).2 hs tr2
    exact inferInstance

/-- Every individual MonitorStatus call returns: started at history `tr`, the
call for the `i`-th hash returns the `i`-th outcome of `outs`, each call runs
from the history the previous one left, and the last one leaves `tr2`. -/
def MonitorsRun (t : Transport) (p : pulse) (fuel : Nat) :
    List String → Trace → List (Except Err txHashData) → Trace → Prop
  | [], tr, outs, tr2 => outs = [] ∧ tr2 = tr
  | _ :: _, _, [], _ => False
  | h :: rest, tr, o :: outs, tr2 =>
    (MonitorStatus t p h fuel tr).map Prod.fst = some o ∧
    MonitorsRun t p fuel rest (((MonitorStatus t p h fuel tr).map Prod.snd).getD tr) outs tr2

instance instDecidableMonitorsRun (t : Transport) (p : pulse) (fuel : Nat) :
    ∀ (hashes : List String) (tr : Trace) (outs : List (Except Err txHashData)) (tr2 : Trace),
      Decidable (MonitorsRun t p fuel hashes tr outs tr2)
  | [], tr, outs, tr2 => by unfold MonitorsRun; exact inferInstance
  | _ :: _, _, [], _ => by unfold MonitorsRun; exact inferInstance
  | h :: rest, tr, o :: outs, tr2 => by
    unfold MonitorsRun
    have := instDecidableMonitorsRun t p fuel rest
      (((MonitorStatus t p h fuel tr).map Prod.snd).getD tr) outs tr2
    exact inferInstance

/-- The records of the calls that succeeded, in the order of the calls. -/
def successes (outs : List (Except Err txHashData)) : List txHashData :=
  outs.filterMap Except.toOption

/-- Number of requests (submits and checks) in a history. -/
def requests (tr : Trace) : Nat := submits tr + checks tr

/-- A scripted transport: the `n`-th request of a history is answered with the
`n`-th entry of the script, and with a transport failure once the script is
exhausted. -/
def scripted (script : List Outcome) : Transport :=
  fun tr => (script.get? (requests tr - 1)).getD .failure

/-- A well-formed answer of the status endpoint. -/
def statusBody (s : String) : Body := .object .absent (.str s) .absent

/-- A well-formed answer of the broadcast endpoint. -/
def hashBody (h : String) : Body := .object (.str h) .absent .absent

/-! ## Basic facts about the embedding -/

theorem Validate_ok_iff (a : Asset) :
    a.Validate = .ok () ↔ a.Symbol ≠ "" ∧ a.Price ≠ 0 ∧ a.Timestamp ≠ 0 := by
  unfold Asset.Validate requiredString requiredUint
  by_cases h1 : a.Symbol = "" <;> by_cases h2 : a.Price = 0 <;> by_cases h3 : a.Timestamp = 0 <;>
    simp [h1, h2, h3]

theorem Validate_error_iff (a : Asset) :
    (∃ e, a.Validate = .error e) ↔ a.Symbol = "" ∨ a.Price = 0 ∨ a.Timestamp = 0 := by
  unfold Asset.Validate requiredString requiredUint
  by_cases h1 : a.Symbol = "" <;> by_cases h2 : a.Price = 0 <;> by_cases h3 : a.Timestamp = 0 <;>
    simp [h1, h2, h3]

theorem asset_eta (a : Asset) : (⟨a.Symbol, a.Price, a.Timestamp⟩ : Asset) = a := rfl

/-! ## The status classifier -/

/-- C9: defineStatus is a total function on strings that maps the four known
statuses to their fixed messages (the pending one with its leading space) and
every other string, the empty string and case variants included, to
"Unknown". -/
theorem defineStatus_table (s : String) :
    defineStatus "CONFIRMED" = "Transaction has been processed and confirmed" ∧
    defineStatus "PENDING" = " Transaction is awaiting processing" ∧
    defineStatus "FAILED" = "Transaction failed to process" ∧
    defineStatus "DNE" = "Transaction does not exist" ∧
    defineStatus "" = "Unknown" ∧
    defineStatus "confirmed" = "Unknown" ∧
    (s ≠ "CONFIRMED" → s ≠ "PENDING" → s ≠ "FAILED" → s ≠ "DNE" → defineStatus s = "Unknown") := by
  refine ⟨by decide, by decide, by decide, by decide, by decide, by decide, ?_⟩
  intro h1 h2 h3 h4
  simp [defineStatus, StatusConfirmed, StatusPending, StatusFailed, StatusDNE, h1, h2, h3, h4]

theorem defineStatus_table_witness :
    "Pending" ≠ "CONFIRMED" ∧ "Pending" ≠ "PENDING" ∧ "Pending" ≠ "FAILED" ∧ "Pending" ≠ "DNE" ∧
    defineStatus "Pending" = "Unknown" :=
  ⟨by decide, by decide, by decide, by decide,
    (defineStatus_table "Pending").2.2.2.2.2.2 (by decide) (by decide) (by decide) (by decide)⟩

/-! ## Client construction -/

/-- C8 (the code at the failing input): with an empty URL and an interval of
ten seconds, New hands back the default client, so the requested interval is
replaced by the default one although it is not zero. -/
theorem New_empty_URL_drops_interval :
    New ⟨"", 10000000000⟩ = NewPulse ∧
    (New ⟨"", 10000000000⟩).pulse = DefaultPulseInterval ∧
    (New ⟨"", 10000000000⟩).pulse ≠ 10000000000 := by
  decide

/-! ## Broadcast -/

/-- C2: Validate fails exactly on an empty symbol, a zero price or a zero
timestamp; on such an asset Broadcast returns an error and leaves the history
untouched (no submit request); on a valid asset it issues exactly one submit
request, carrying the asset, and returns the hash decoded from a response with
a status code below 400 and a well-formed body. -/
theorem Broadcast_validates_first (t : Transport) (asset : Asset) (tr : Trace) :
    ((∃ e, asset.Validate = .error e) ↔
      asset.Symbol = "" ∨ asset.Price = 0 ∨ asset.Timestamp = 0) ∧
    ((asset.Symbol = "" ∨ asset.Price = 0 ∨ asset.Timestamp = 0) →
      (∃ e, (Broadcast t asset tr).1 = .error e) ∧ (Broadcast t asset tr).2 = tr ∧
      submits (Broadcast t asset tr).2 = submits tr) ∧
    ((asset.Symbol ≠ "" ∧ asset.Price ≠ 0 ∧ asset.Timestamp ≠ 0) →
      (Broadcast t asset tr).2 = tr ++ [Event.submit asset] ∧
      submits (Broadcast t asset tr).2 = submits tr + 1 ∧
      ∀ code body r, t (tr ++ [Event.submit asset]) = .response code body → code < 400 →
        unmarshalBroadcast body = some r → (Broadcast t asset tr).1 = .ok r) := by
  refine ⟨Validate_error_iff asset, ?_, ?_⟩
  · intro h
    obtain ⟨e, he⟩ := (Validate_error_iff asset).2 h
    simp [Broadcast, he]
  · intro h
    have hv := (Validate_ok_iff asset).2 h
    have htr : (Broadcast t asset tr).2 = tr ++ [Event.submit asset] := by
      simp only [Broadcast, hv, asset_eta]
      cases t (tr ++ [Event.submit asset]) with
      | failure => rfl
      | response code body =>
        by_cases hc : code ≥ 400
        · simp [hc]
        · simp only [hc, if_false]
          cases unmarshalBroadcast body <;> rfl
    refine ⟨htr, ?_, ?_⟩
    · rw [htr]; simp [submits]
    · intro code body r ht hc hr
      have hc2 : ¬ code ≥ 400 := by omega
      simp [Broadcast, hv, asset_eta, ht, hc2, hr]

theorem Broadcast_validates_first_witness :
    (("" : String) = "" ∨ 4500 = 0 ∨ 1678912345 = 0) ∧
    (Broadcast (scripted [.response 200 (hashBody "abc")]) ⟨"", 4500, 1678912345⟩ []).2 = [] ∧
    (("ETH" : String) ≠ "" ∧ 4500 ≠ 0 ∧ 1678912345 ≠ 0) ∧
    (Broadcast (scripted [.response 200 (hashBody "abc")]) ⟨"ETH", 4500, 1678912345⟩ []).1 =
      .ok ⟨"abc"⟩ :=
  ⟨Or.inl rfl,
   ((Broadcast_validates_first (scripted [.response 200 (hashBody "abc")])
      ⟨"", 4500, 1678912345⟩ []).2.1 (Or.inl rfl)).2.1,
   ⟨by decide, by decide, by decide⟩,
   ((Broadcast_validates_first (scripted [.response 200 (hashBody "abc")])
      ⟨"ETH", 4500, 1678912345⟩ []).2.2 ⟨by decide, by decide, by decide⟩).2.2
      200 (hashBody "abc") ⟨"abc"⟩ (by decide) (by decide) (by decide)⟩

/-! ## The polling loop -/

theorem checks_append (a b : Trace) : checks (a ++ b) = checks a + checks b := by
  simp [checks]

theorem sleeps_append (a b : Trace) : sleeps (a ++ b) = sleeps a + sleeps b := by
  simp [sleeps]

theorem submits_append (a b : Trace) : submits (a ++ b) = submits a + submits b := by
  simp [submits]

theorem checks_pendingRounds (h : String) (d : Int) (k : Nat) :
    checks (pendingRounds h d k) = k := by
  induction k with
  | zero => rfl
  | succ k ih =>
    have : checks (pendingRounds h d (k + 1)) = checks (pendingRounds h d k) + 1 := by
      simp [checks, pendingRounds]
    omega

theorem sleeps_pendingRounds (h : String) (d : Int) (k : Nat) :
    sleeps (pendingRounds h d k) = k := by
  induction k with
  | zero => rfl
  | succ k ih =>
    have : sleeps (pendingRounds h d (k + 1)) = sleeps (pendingRounds h d k) + 1 := by
      simp [sleeps, pendingRounds]
    omega

theorem submits_pendingRounds (h : String) (d : Int) (k : Nat) :
    submits (pendingRounds h d k) = 0 := by
  induction k with
  | zero => rfl
  | succ k ih =>
    have : submits (pendingRounds h d (k + 1)) = submits (pendingRounds h d k) := by
      simp [submits, pendingRounds]
    omega

theorem mem_pendingRounds (h : String) (d : Int) (k : Nat) (e : Event)
    (he : e ∈ pendingRounds h d k) : e = Event.check h ∨ e = Event.sleep d := by
  induction k with
  | zero => simp [pendingRounds] at he
  | succ k ih =>
    simp only [pendingRounds, List.mem_cons] at he
    rcases he with he | he | he
    · exact Or.inl he
    · exact Or.inr he
    · exact ih he

theorem answersStatus_iff (o : Outcome) (s : String) :
    answersStatus o s = true ↔
      ∃ code body, o = .response code body ∧ code < 400 ∧ unmarshalStatus body = some ⟨s⟩ := by
  cases o with
  | failure => simp [answersStatus]
  | response code body =>
    simp only [answersStatus, Bool.and_eq_true, decide_eq_true_eq]
    constructor
    · intro h; exact ⟨code, body, rfl, h⟩
    · rintro ⟨c, b, he, h⟩
      cases he
      exact h

/-- One loop iteration that sees a pending status: check, sleep, go round. -/
theorem MonitorStatus_pending_step (t : Transport) (p : pulse) (h : String) (f : Nat) (tr : Trace)
    (code : Nat) (body : Body) (ht : t (tr ++ [Event.check h]) = .response code body)
    (hc : code < 400) (hb : unmarshalStatus body = some ⟨StatusPending⟩) :
    MonitorStatus t p h (f + 1) tr =
      MonitorStatus t p h f (tr ++ [Event.check h] ++ [Event.sleep p.pulse]) := by
  have hc2 : ¬ code ≥ 400 := by omega
  simp [MonitorStatus, ht, hc2, hb]

/-- One loop iteration that sees a status other than pending: check, return. -/
theorem MonitorStatus_terminal_step (t : Transport) (p : pulse) (h : String) (f : Nat)
    (tr : Trace) (code : Nat) (body : Body) (s : String)
    (ht : t (tr ++ [Event.check h]) = .response code body)
    (hc : code < 400) (hb : unmarshalStatus body = some ⟨s⟩) (hs : s ≠ StatusPending) :
    MonitorStatus t p h (f + 1) tr =
      some (.ok ⟨h, s, defineStatus s⟩, tr ++ [Event.check h]) := by
  have hc2 : ¬ code ≥ 400 := by omega
  simp [MonitorStatus, ht, hc2, hb, hs]

/-- One loop iteration that sees a status code of 400 or more: check, fail. -/
theorem MonitorStatus_badStatus_step (t : Transport) (p : pulse) (h : String) (f : Nat)
    (tr : Trace) (code : Nat) (body : Body)
    (ht : t (tr ++ [Event.check h]) = .response code body) (hc : 400 ≤ code) :
    MonitorStatus t p h (f + 1) tr =
      some (.error (.wrap "monitor status failed" .badStatus), tr ++ [Event.check h]) := by
  simp [MonitorStatus, ht, hc]

theorem PendingFor_tail (t : Transport) (h : String) (d : Int) (tr : Trace) (k : Nat)
    (hp : PendingFor t h d tr (k + 1)) :
    PendingFor t h d (tr ++ [Event.check h] ++ [Event.sleep d]) k := by
  intro j hj
  have := hp (j + 1) (by omega)
  simpa [pendingRounds, List.append_assoc] using this

/-- After `k` pending answers the loop stands at the history extended by `k`
rounds, with `k` units of fuel used. -/
theorem MonitorStatus_pending_rounds (t : Transport) (p : pulse) (h : String) (f : Nat) :
    ∀ (k : Nat) (tr : Trace), PendingFor t h p.pulse tr k →
      MonitorStatus t p h (k + f) tr = MonitorStatus t p h f (tr ++ pendingRounds h p.pulse k) := by
  intro k
  induction k with
  | zero => intro tr _; simp [pendingRounds]
  | succ k ih =>
    intro tr hp
    obtain ⟨code, body, ht, hc, hb⟩ := (answersStatus_iff _ _).1 (hp 0 (by omega))
    simp only [pendingRounds, List.append_nil] at ht
    have hstep := MonitorStatus_pending_step t p h (k + f) tr code body ht hc hb
    have e : k + 1 + f = k + f + 1 := by omega
    rw [e, hstep, ih _ (PendingFor_tail t h p.pulse tr k hp)]
    simp [pendingRounds, List.append_assoc]

/-- A record handed back by the loop carries the polled hash, a status that is
not pending, and the message defined for that status. -/
theorem MonitorStatus_ok_shape (t : Transport) (p : pulse) (h : String) :
    ∀ (fuel : Nat) (tr : Trace) (r : txHashData) (tr1 : Trace),
      MonitorStatus t p h fuel tr = some (.ok r, tr1) →
      r.TxHash = h ∧ r.Status ≠ StatusPending ∧ r.Message = defineStatus r.Status := by
  intro fuel
  induction fuel with
  | zero => intro tr r tr1 hm; simp [MonitorStatus] at hm
  | succ f ih =>
    intro tr r tr1 hm
    simp only [MonitorStatus] at hm
    cases ht : t (tr ++ [Event.check h]) with
    | failure => simp [ht] at hm
    | response code body =>
      simp only [ht] at hm
      by_cases hc : code ≥ 400
      · simp [hc] at hm
      · simp only [hc, if_false] at hm
        cases hb : unmarshalStatus body with
        | none => simp [hb] at hm
        | some result =>
          simp only [hb] at hm
          by_cases hs : result.Status ≠ StatusPending
          · rw [if_pos hs] at hm
            simp only [Option.some.injEq, Prod.mk.injEq, Except.ok.injEq] at hm
            obtain ⟨hr, _⟩ := hm
            subst hr
            exact ⟨rfl, hs, rfl⟩
          · rw [if_neg hs] at hm
            exact ih _ r tr1 hm

/-- More fuel does not change a run that has returned. -/
theorem MonitorStatus_fuel_mono (t : Transport) (p : pulse) (h : String) :
    ∀ (fuel : Nat) (tr : Trace) (x : Except Err txHashData × Trace) (extra : Nat),
      MonitorStatus t p h fuel tr = some x → MonitorStatus t p h (fuel + extra) tr = some x := by
  intro fuel
  induction fuel with
  | zero => intro tr x extra hm; simp [MonitorStatus] at hm
  | succ f ih =>
    intro tr x extra hm
    have e : f + 1 + extra = (f + extra) + 1 := by omega
    rw [e]
    simp only [MonitorStatus] at hm ⊢
    cases ht : t (tr ++ [Event.check h]) with
    | failure => simpa [ht] using hm
    | response code body =>
      simp only [ht] at hm ⊢
      by_cases hc : code ≥ 400
      · simpa [hc] using hm
      · simp only [hc, if_false] at hm ⊢
        cases hb : unmarshalStatus body with
        | none => simpa [hb] using hm
        | some result =>
          simp only [hb] at hm ⊢
          by_cases hs : result.Status ≠ StatusPending
          · rw [if_pos hs] at hm ⊢
            exact hm
          · rw [if_neg hs] at hm ⊢
            exact ih _ x extra hm

/-- C1: if, from history `tr` on, the status endpoint answers the checks of
hash `h` with PENDING exactly `k` times and then with a terminal status `s`
(CONFIRMED, FAILED or DNE), each time with a status code below 400 and a
well-formed body, then with fuel for `k + 1` iterations MonitorStatus returns
without error the record of `h`, `s` and `defineStatus s`; what it adds to the
history is `k` rounds of check-then-sleep followed by one last check: exactly
`k + 1` check requests, exactly `k` sleeps, each of the pulse interval, and no
submit. No run of MonitorStatus returns a record whose status is PENDING. -/
theorem MonitorStatus_scripted (t : Transport) (p : pulse) (h : String) (k : Nat) (s : String)
    (fuel : Nat) (tr : Trace)
    (hs : s = StatusConfirmed ∨ s = StatusFailed ∨ s = StatusDNE)
    (hpending : PendingFor t h p.pulse tr k)
    (hlast : answersStatus (t (tr ++ pendingRounds h p.pulse k ++ [Event.check h])) s = true)
    (hfuel : k + 1 ≤ fuel) :
    ∃ added : Trace,
      MonitorStatus t p h fuel tr = some (.ok ⟨h, s, defineStatus s⟩, tr ++ added) ∧
      added = pendingRounds h p.pulse k ++ [Event.check h] ∧
      checks added = k + 1 ∧ sleeps added = k ∧ submits added = 0 ∧
      (∀ e ∈ added, e = Event.check h ∨ e = Event.sleep p.pulse) ∧
      (∀ (fuel0 : Nat) (tr0 : Trace) (r : txHashData) (tr1 : Trace),
        MonitorStatus t p h fuel0 tr0 = some (.ok r, tr1) → r.Status ≠ StatusPending) := by
  have hsp : s ≠ StatusPending := by
    rcases hs with hs | hs | hs <;> subst hs <;> decide
  obtain ⟨code, body, ht, hc, hb⟩ := (answersStatus_iff _ _).1 hlast
  refine ⟨pendingRounds h p.pulse k ++ [Event.check h], ?_, rfl, ?_, ?_, ?_, ?_, ?_⟩
  · have e : fuel = k + (1 + (fuel - (k + 1))) := by omega
    rw [e, MonitorStatus_pending_rounds t p h _ k tr hpending]
    have e2 : 1 + (fuel - (k + 1)) = (fuel - (k + 1)) + 1 := by omega
    rw [e2, MonitorStatus_terminal_step t p h _ _ code body s ht hc hb hsp]
    simp [List.append_assoc]
  · rw [checks_append, checks_pendingRounds]; rfl
  · rw [sleeps_append, sleeps_pendingRounds]; rfl
  · rw [submits_append, submits_pendingRounds]; rfl
  · intro e he
    rcases List.mem_append.1 he with he | he
    · exact mem_pendingRounds h p.pulse k e he
    · left; simpa using he
  · intro fuel0 tr0 r tr1 hm
    exact (MonitorStatus_ok_shape t p h fuel0 tr0 r tr1 hm).2.1

theorem MonitorStatus_scripted_witness :
    PendingFor (scripted [.response 200 (statusBody "PENDING"),
        .response 200 (statusBody "PENDING"), .response 200 (statusBody "CONFIRMED")])
      "h" NewPulse.pulse [] 2 ∧
    ∃ added : Trace,
      MonitorStatus (scripted [.response 200 (statusBody "PENDING"),
          .response 200 (statusBody "PENDING"), .response 200 (statusBody "CONFIRMED")])
        NewPulse "h" 3 [] =
        some (.ok ⟨"h", "CONFIRMED", defineStatus "CONFIRMED"⟩, [] ++ added) ∧
      added = pendingRounds "h" NewPulse.pulse 2 ++ [Event.check "h"] ∧
      checks added = 2 + 1 ∧ sleeps added = 2 ∧ submits added = 0 ∧
      (∀ e ∈ added, e = Event.check "h" ∨ e = Event.sleep NewPulse.pulse) ∧
      (∀ (fuel0 : Nat) (tr0 : Trace) (r : txHashData) (tr1 : Trace),
        MonitorStatus (scripted [.response 200 (statusBody "PENDING"),
            .response 200 (statusBody "PENDING"), .response 200 (statusBody "CONFIRMED")])
          NewPulse "h" fuel0 tr0 = some (.ok r, tr1) → r.Status ≠ StatusPending) :=
  ⟨by decide,
   MonitorStatus_scripted _ NewPulse "h" 2 "CONFIRMED" 3 [] (Or.inl rfl) (by decide) (by decide)
     (by decide)⟩

/-- C10 (the code at the failing input): when the first answer is CONFIRMED,
MonitorStatus returns after one check request and no sleep at all; the first
request is the first thing it does. -/
theorem MonitorStatus_first_check_unslept :
    MonitorStatus (scripted [.response 200 (statusBody "CONFIRMED")]) NewPulse "h" 1 [] =
      some (.ok ⟨"h", "CONFIRMED", MessageConfirmed⟩, [Event.check "h"]) ∧
    checks [Event.check "h"] = 1 ∧ sleeps [Event.check "h"] = 0 := by
  decide

/-! ## BroadcastAndMonitor -/

/-- The body of BroadcastAndMonitor once validation has passed and the submit
request has been answered with a response below 400 whose body decodes to the
record `d`: the outcome is that of monitoring `d.TxHash`, errors wrapped. -/
theorem BroadcastAndMonitor_decoded (t : Transport) (p : pulse) (asset : Asset) (fuel : Nat)
    (tr : Trace) (code : Nat) (body : Body) (d : txHashData)
    (hv : asset.Validate = .ok ()) (ht : t (tr ++ [Event.submit asset]) = .response code body)
    (hc : code < 400) (hd : unmarshalTxHashData body = some d) :
    BroadcastAndMonitor t p asset fuel tr =
      match MonitorStatus t p d.TxHash fuel (tr ++ [Event.submit asset]) with
      | none => none
      | some (.error err, tr2) =>
        some (.error (.wrap "request failed broadcast_and_monitor" err), tr2)
      | some (.ok status, tr2) => some (.ok ⟨d.TxHash, status.Status, status.Message⟩, tr2) := by
  have hc2 : ¬ code ≥ 400 := by omega
  simp only [BroadcastAndMonitor, hv, asset_eta, ht, hc2, if_false, hd]

/-- A successful BroadcastAndMonitor went through every stage. -/
theorem BroadcastAndMonitor_ok_inv (t : Transport) (p : pulse) (asset : Asset) (fuel : Nat)
    (tr : Trace) (r : txHashData) (tr2 : Trace)
    (hm : BroadcastAndMonitor t p asset fuel tr = some (.ok r, tr2)) :
    asset.Validate = .ok () ∧
    ∃ code body d, t (tr ++ [Event.submit asset]) = .response code body ∧ code < 400 ∧
      unmarshalTxHashData body = some d ∧
      MonitorStatus t p d.TxHash fuel (tr ++ [Event.submit asset]) = some (.ok r, tr2) := by
  cases hv : asset.Validate with
  | error e => simp [BroadcastAndMonitor, hv] at hm
  | ok u =>
    refine ⟨rfl, ?_⟩
    cases ht : t (tr ++ [Event.submit asset]) with
    | failure => simp [BroadcastAndMonitor, hv, asset_eta, ht] at hm
    | response code body =>
      by_cases hc : code ≥ 400
      · simp [BroadcastAndMonitor, hv, asset_eta, ht, hc] at hm
      · cases hd : unmarshalTxHashData body with
        | none => simp [BroadcastAndMonitor, hv, asset_eta, ht, hc, hd] at hm
        | some d =>
          have hlt : code < 400 := by omega
          rw [BroadcastAndMonitor_decoded t p asset fuel tr code body d hv ht hlt hd] at hm
          refine ⟨code, body, d, rfl, hlt, hd, ?_⟩
          cases hms : MonitorStatus t p d.TxHash fuel (tr ++ [Event.submit asset]) with
          | none => simp [hms] at hm
          | some x =>
            obtain ⟨o, tr3⟩ := x
            cases o with
            | error e => simp [hms] at hm
            | ok status =>
              simp only [hms, Option.some.injEq, Prod.mk.injEq, Except.ok.injEq] at hm
              obtain ⟨h1, h2⟩ := hm
              have hshape := MonitorStatus_ok_shape t p d.TxHash fuel _ status tr3 hms
              have : status = r := by
                rw [← h1]
                cases status
                simp only at hshape
                simp [hshape.1]
              rw [this, h2]

theorem Broadcast_ok_inv (t : Transport) (asset : Asset) (tr : Trace) (h : broadcastResponse)
    (tr1 : Trace) (hb : Broadcast t asset tr = (.ok h, tr1)) :
    asset.Validate = .ok () ∧ tr1 = tr ++ [Event.submit asset] ∧
    ∃ code body, t (tr ++ [Event.submit asset]) = .response code body ∧ code < 400 ∧
      unmarshalBroadcast body = some h := by
  cases hv : asset.Validate with
  | error e => simp [Broadcast, hv] at hb
  | ok u =>
    refine ⟨rfl, ?_⟩
    cases ht : t (tr ++ [Event.submit asset]) with
    | failure => simp [Broadcast, hv, asset_eta, ht] at hb
    | response code body =>
      by_cases hc : code ≥ 400
      · simp [Broadcast, hv, asset_eta, ht, hc] at hb
      · cases hd : unmarshalBroadcast body with
        | none => simp [Broadcast, hv, asset_eta, ht, hc, hd] at hb
        | some d =>
          simp only [Broadcast, hv, asset_eta, ht, hc, if_false, hd, Prod.mk.injEq,
            Except.ok.injEq] at hb
          exact ⟨hb.2.symm, code, body, rfl, by omega, by rw [hd, hb.1]⟩

theorem Broadcast_ok_of (t : Transport) (asset : Asset) (tr : Trace) (code : Nat) (body : Body)
    (h : broadcastResponse) (hv : asset.Validate = .ok ())
    (ht : t (tr ++ [Event.submit asset]) = .response code body) (hc : code < 400)
    (hd : unmarshalBroadcast body = some h) :
    Broadcast t asset tr = (.ok h, tr ++ [Event.submit asset]) := by
  have hc2 : ¬ code ≥ 400 := by omega
  simp [Broadcast, hv, asset_eta, ht, hc2, hd]

/-- A body that decodes to a record decodes to a broadcast answer with the same
hash. -/
theorem unmarshalBroadcast_of_record (body : Body) (d : txHashData)
    (hd : unmarshalTxHashData body = some d) : unmarshalBroadcast body = some ⟨d.TxHash⟩ := by
  cases body with
  | invalid => simp [unmarshalTxHashData] at hd
  | object h s m =>
    cases h <;> cases s <;> cases m <;>
      simp_all [unmarshalTxHashData, unmarshalBroadcast, Field.into] <;> (subst hd; rfl)

/-- A body that decodes to a broadcast answer and has no mistyped extra member
decodes to a record with the same hash. -/
theorem unmarshalTxHashData_of_plain (body : Body) (h : broadcastResponse)
    (hd : unmarshalBroadcast body = some h) (hp : body.plainExtras = true) :
    ∃ d, unmarshalTxHashData body = some d ∧ d.TxHash = h.TxHash := by
  cases body with
  | invalid => simp [unmarshalBroadcast] at hd
  | object x s m =>
    cases x <;> cases s <;> cases m <;>
      simp_all [unmarshalTxHashData, unmarshalBroadcast, Field.into, Body.plainExtras] <;>
      (subst hd; rfl)

/-- Rebuilding the record from the monitored hash and the returned status and
message changes nothing a caller can see. -/
theorem observable_rebuild (t : Transport) (p : pulse) (h : String) (fuel : Nat) (tr : Trace) :
    observable
      (match MonitorStatus t p h fuel tr with
      | none => none
      | some (.error err, tr2) =>
        some (.error (.wrap "request failed broadcast_and_monitor" err), tr2)
      | some (.ok status, tr2) => some (.ok ⟨h, status.Status, status.Message⟩, tr2)) =
    observable (MonitorStatus t p h fuel tr) := by
  cases hms : MonitorStatus t p h fuel tr with
  | none => rfl
  | some x =>
    obtain ⟨o, tr3⟩ := x
    cases o with
    | error e => rfl
    | ok status =>
      have hshape := MonitorStatus_ok_shape t p h fuel _ status tr3 hms
      cases status
      simp only at hshape
      simp [observable, Except.toOption, hshape.1]

/-- C5 (as stated, at a concrete input): the submit answer carries the hash
"h" and a `tx_status` member that is a number. Broadcast succeeds with hash
"h", MonitorStatus of "h" then succeeds with a CONFIRMED record, and yet
BroadcastAndMonitor fails, without issuing a single check request. -/
theorem BroadcastAndMonitor_not_composition :
    Broadcast (scripted mistypedStatusScript) ⟨"ETH", 4500, 1678912345⟩ [] =
      (.ok ⟨"h"⟩, [Event.submit ⟨"ETH", 4500, 1678912345⟩]) ∧
    MonitorStatus (scripted mistypedStatusScript) NewPulse "h" 1
        [Event.submit ⟨"ETH", 4500, 1678912345⟩] =
      some (.ok ⟨"h", "CONFIRMED", MessageConfirmed⟩,
        [Event.submit ⟨"ETH", 4500, 1678912345⟩, Event.check "h"]) ∧
    (∃ e, BroadcastAndMonitor (scripted mistypedStatusScript) NewPulse
        ⟨"ETH", 4500, 1678912345⟩ 1 [] =
      some (.error e, [Event.submit ⟨"ETH", 4500, 1678912345⟩])) ∧
    ¬ ∃ r tr2, BroadcastAndMonitor (scripted mistypedStatusScript) NewPulse
        ⟨"ETH", 4500, 1678912345⟩ 1 [] = some (.ok r, tr2) := by
  have hbam : BroadcastAndMonitor (scripted mistypedStatusScript) NewPulse
      ⟨"ETH", 4500, 1678912345⟩ 1 [] =
      some (.error (.wrap "unmarshal failed broadcast_and_monitor" .unmarshal),
        [Event.submit ⟨"ETH", 4500, 1678912345⟩]) := by decide
  refine ⟨by decide, by decide, ⟨_, hbam⟩, ?_⟩
  rintro ⟨r, tr2, h⟩
  rw [hbam] at h
  cases h

/-- C5 (amended): whenever BroadcastAndMonitor succeeds, Broadcast succeeds
with some hash and MonitorStatus of that hash then succeeds with the very same
record; whenever Broadcast fails, or Broadcast succeeds and MonitorStatus of its
hash fails, BroadcastAndMonitor returns an error; and when the body of the
submit answer offers no mistyped `tx_status` or `message` member,
BroadcastAndMonitor and the composition of Broadcast with MonitorStatus are
indistinguishable: same value or both in error, same history, and one has
returned exactly when the other has. -/
theorem BroadcastAndMonitor_composition (t : Transport) (p : pulse) (asset : Asset) (fuel : Nat)
    (tr : Trace) :
    (∀ r tr2, BroadcastAndMonitor t p asset fuel tr = some (.ok r, tr2) →
      ∃ h tr1, Broadcast t asset tr = (.ok h, tr1) ∧
        MonitorStatus t p h.TxHash fuel tr1 = some (.ok r, tr2)) ∧
    (∀ e tr1, Broadcast t asset tr = (.error e, tr1) →
      ∃ e2, BroadcastAndMonitor t p asset fuel tr = some (.error e2, tr1)) ∧
    (∀ h tr1 e tr2, Broadcast t asset tr = (.ok h, tr1) →
      MonitorStatus t p h.TxHash fuel tr1 = some (.error e, tr2) →
      ∃ e2 tr3, BroadcastAndMonitor t p asset fuel tr = some (.error e2, tr3)) ∧
    ((∀ code body, t (tr ++ [Event.submit asset]) = .response code body →
        body.plainExtras = true) →
      observable (BroadcastAndMonitor t p asset fuel tr) =
        observable (broadcastThenMonitor t p asset fuel tr)) := by
  refine ⟨?_, ?_, ?_, ?_⟩
  · intro r tr2 hm
    obtain ⟨hv, code, body, d, ht, hc, hd, hms⟩ := BroadcastAndMonitor_ok_inv t p asset fuel tr r tr2 hm
    exact ⟨⟨d.TxHash⟩, _, Broadcast_ok_of t asset tr code body _ hv ht hc
      (unmarshalBroadcast_of_record body d hd), hms⟩
  · intro e tr1 hb
    cases hv : asset.Validate with
    | error e1 =>
      simp only [Broadcast, hv, Prod.mk.injEq] at hb
      obtain ⟨-, rfl⟩ := hb
      exact ⟨.wrap "validate failed broadcast_and_monitor" e1, by simp [BroadcastAndMonitor, hv]⟩
    | ok u =>
      cases ht : t (tr ++ [Event.submit asset]) with
      | failure =>
        simp only [Broadcast, hv, asset_eta, ht, Prod.mk.injEq] at hb
        obtain ⟨-, rfl⟩ := hb
        exact ⟨.wrap "request failed broadcast_and_monitor" .transport,
          by simp [BroadcastAndMonitor, hv, asset_eta, ht]⟩
      | response code body =>
        by_cases hc : code ≥ 400
        · simp only [Broadcast, hv, asset_eta, ht, hc, if_true, Prod.mk.injEq] at hb
          obtain ⟨-, rfl⟩ := hb
          exact ⟨.wrap "broadcast failed" .badStatus,
            by simp [BroadcastAndMonitor, hv, asset_eta, ht, hc]⟩
        · cases hd : unmarshalBroadcast body with
          | some d => simp [Broadcast, hv, asset_eta, ht, hc, hd] at hb
          | none =>
            simp only [Broadcast, hv, asset_eta, ht, hc, if_false, hd, Prod.mk.injEq] at hb
            obtain ⟨-, rfl⟩ := hb
            have hd2 : unmarshalTxHashData body = none := by
              cases hr : unmarshalTxHashData body with
              | none => rfl
              | some d => rw [unmarshalBroadcast_of_record body d hr] at hd; cases hd
            exact ⟨.wrap "unmarshal failed broadcast_and_monitor" .unmarshal,
              by simp [BroadcastAndMonitor, hv, asset_eta, ht, hc, hd2]⟩
  · intro h tr1 e tr2 hb hms
    obtain ⟨hv, htr, code, body, ht, hc, hd⟩ := Broadcast_ok_inv t asset tr h tr1 hb
    cases hr : unmarshalTxHashData body with
    | none =>
      have hc2 : ¬ code ≥ 400 := by omega
      exact ⟨.wrap "unmarshal failed broadcast_and_monitor" .unmarshal, tr ++ [Event.submit asset],
        by simp only [BroadcastAndMonitor, hv, asset_eta, ht, hc2, if_false, hr]⟩
    | some d =>
      have hsame := unmarshalBroadcast_of_record body d hr
      rw [hd] at hsame
      have hh : d.TxHash = h.TxHash := by cases hsame; rfl
      rw [BroadcastAndMonitor_decoded t p asset fuel tr code body d hv ht hc hr, hh, ← htr, hms]
      exact ⟨_, _, rfl⟩
  · intro hplain
    cases hv : asset.Validate with
    | error e1 => simp [BroadcastAndMonitor, broadcastThenMonitor, Broadcast, hv, observable,
        Except.toOption]
    | ok u =>
      cases ht : t (tr ++ [Event.submit asset]) with
      | failure => simp [BroadcastAndMonitor, broadcastThenMonitor, Broadcast, hv, asset_eta, ht,
          observable, Except.toOption]
      | response code body =>
        by_cases hc : code ≥ 400
        · simp [BroadcastAndMonitor, broadcastThenMonitor, Broadcast, hv, asset_eta, ht, hc,
            observable, Except.toOption]
        · cases hd : unmarshalBroadcast body with
          | none =>
            have hd2 : unmarshalTxHashData body = none := by
              cases hr : unmarshalTxHashData body with
              | none => rfl
              | some d => rw [unmarshalBroadcast_of_record body d hr] at hd; cases hd
            simp [BroadcastAndMonitor, broadcastThenMonitor, Broadcast, hv, asset_eta, ht, hc,
              hd, hd2, observable, Except.toOption]
          | some h =>
            obtain ⟨d, hr, hh⟩ := unmarshalTxHashData_of_plain body h hd (hplain code body ht)
            have hlt : code < 400 := by omega
            rw [BroadcastAndMonitor_decoded t p asset fuel tr code body d hv ht hlt hr,
              observable_rebuild]
            simp only [broadcastThenMonitor, Broadcast_ok_of t asset tr code body h hv ht hlt hd, hh]

theorem BroadcastAndMonitor_composition_witness :
    BroadcastAndMonitor (scripted chattyScript) NewPulse ⟨"ETH", 4500, 1678912345⟩ 1 [] =
      some (.ok ⟨"h", "CONFIRMED", MessageConfirmed⟩,
        [Event.submit ⟨"ETH", 4500, 1678912345⟩, Event.check "h"]) ∧
    (∃ h tr1,
      Broadcast (scripted chattyScript) ⟨"ETH", 4500, 1678912345⟩ [] = (.ok h, tr1) ∧
      MonitorStatus (scripted chattyScript) NewPulse h.TxHash 1 tr1 =
        some (.ok ⟨"h", "CONFIRMED", MessageConfirmed⟩,
          [Event.submit ⟨"ETH", 4500, 1678912345⟩, Event.check "h"])) ∧
    (∀ code body, scripted chattyScript ([] ++ [Event.submit ⟨"ETH", 4500, 1678912345⟩]) =
      .response code body → body.plainExtras = true) ∧
    observable (BroadcastAndMonitor (scripted chattyScript) NewPulse
        ⟨"ETH", 4500, 1678912345⟩ 1 []) =
      observable (broadcastThenMonitor (scripted chattyScript) NewPulse
        ⟨"ETH", 4500, 1678912345⟩ 1 []) :=
  have hplain : ∀ code body,
      scripted chattyScript ([] ++ [Event.submit ⟨"ETH", 4500, 1678912345⟩]) =
        .response code body → body.plainExtras = true := by
    intro code body h
    have hv : scripted chattyScript ([] ++ [Event.submit ⟨"ETH", 4500, 1678912345⟩]) =
        .response 200 (.object (.str "h") (.str "FAILED") (.str "made up")) := by decide
    rw [hv] at h
    cases h
    decide
  ⟨by decide,
   (BroadcastAndMonitor_composition (scripted chattyScript) NewPulse
      ⟨"ETH", 4500, 1678912345⟩ 1 []).1 ⟨"h", "CONFIRMED", MessageConfirmed⟩
      [Event.submit ⟨"ETH", 4500, 1678912345⟩, Event.check "h"] (by decide),
   hplain,
   (BroadcastAndMonitor_composition (scripted chattyScript) NewPulse
      ⟨"ETH", 4500, 1678912345⟩ 1 []).2.2.2 hplain⟩

/-! ## The record invariant -/

theorem MultipleMonitorStatus_loop_inv (t : Transport) (p : pulse) (fuel : Nat)
    (P : txHashData → Prop)
    (hP : ∀ h tr r tr1, MonitorStatus t p h fuel tr = some (.ok r, tr1) →
      P ⟨h, r.Status, r.Message⟩) :
    ∀ (hashes : List String) (acc : List txHashData) (tr : Trace) (rs : List txHashData)
      (tr1 : Trace), MultipleMonitorStatus.loop t p fuel hashes acc tr = some (rs, tr1) →
      (∀ r ∈ acc, P r) → ∀ r ∈ rs, P r := by
  intro hashes
  induction hashes with
  | nil =>
    intro acc tr rs tr1 hl hacc
    simp only [MultipleMonitorStatus.loop, Option.some.injEq, Prod.mk.injEq] at hl
    rw [← hl.1]; exact hacc
  | cons h rest ih =>
    intro acc tr rs tr1 hl hacc
    simp only [MultipleMonitorStatus.loop] at hl
    cases hms : MonitorStatus t p h fuel tr with
    | none => simp [hms] at hl
    | some x =>
      obtain ⟨o, tr2⟩ := x
      cases o with
      | error e =>
        simp only [hms] at hl
        exact ih acc tr2 rs tr1 hl hacc
      | ok status =>
        simp only [hms] at hl
        refine ih _ tr2 rs tr1 hl ?_
        intro r hr
        rcases List.mem_append.1 hr with hr | hr
        · exact hacc r hr
        · simp only [List.mem_singleton] at hr
          rw [hr]
          exact hP h tr status tr2 hms

theorem MultipleBroadcastAndMonitor_loop_inv (t : Transport) (p : pulse) (fuel : Nat)
    (P : txHashData → Prop)
    (hP : ∀ a tr r tr1, BroadcastAndMonitor t p a fuel tr = some (.ok r, tr1) → P r) :
    ∀ (assets : List Asset) (acc : List txHashData) (tr : Trace) (rs : List txHashData)
      (tr1 : Trace),
      MultipleBroadcastAndMonitor.loop t p fuel assets acc tr = some (.ok rs, tr1) →
      (∀ r ∈ acc, P r) → ∀ r ∈ rs, P r := by
  intro assets
  induction assets with
  | nil =>
    intro acc tr rs tr1 hl hacc
    simp only [MultipleBroadcastAndMonitor.loop, Option.some.injEq, Prod.mk.injEq,
      Except.ok.injEq] at hl
    rw [← hl.1]; exact hacc
  | cons a rest ih =>
    intro acc tr rs tr1 hl hacc
    simp only [MultipleBroadcastAndMonitor.loop] at hl
    cases hms : BroadcastAndMonitor t p a fuel tr with
    | none => simp [hms] at hl
    | some x =>
      obtain ⟨o, tr2⟩ := x
      cases o with
      | error e => simp [hms] at hl
      | ok status =>
        simp only [hms] at hl
        refine ih _ tr2 rs tr1 hl ?_
        intro r hr
        rcases List.mem_append.1 hr with hr | hr
        · exact hacc r hr
        · simp only [List.mem_singleton] at hr
          rw [hr]
          exact hP a tr status tr2 hms

theorem BroadcastAndMonitor_ok_shape (t : Transport) (p : pulse) (asset : Asset) (fuel : Nat)
    (tr : Trace) (r : txHashData) (tr1 : Trace)
    (hm : BroadcastAndMonitor t p asset fuel tr = some (.ok r, tr1)) :
    r.Status ≠ StatusPending ∧ r.Message = defineStatus r.Status := by
  obtain ⟨_, _, _, d, _, _, _, hms⟩ := BroadcastAndMonitor_ok_inv t p asset fuel tr r tr1 hm
  exact (MonitorStatus_ok_shape t p d.TxHash fuel _ r tr1 hms).2

/-- C7: for every transport, every record returned by MonitorStatus and by
BroadcastAndMonitor, and every element of the results of MultipleMonitorStatus
and MultipleBroadcastAndMonitor, has the message that defineStatus gives for
its status, whatever `tx_status` or `message` members the body of the submit
answer carries. -/
theorem record_invariant (t : Transport) (p : pulse) :
    (∀ h fuel tr r tr1, MonitorStatus t p h fuel tr = some (.ok r, tr1) →
      r.Message = defineStatus r.Status) ∧
    (∀ asset fuel tr r tr1, BroadcastAndMonitor t p asset fuel tr = some (.ok r, tr1) →
      r.Message = defineStatus r.Status) ∧
    (∀ hashes fuel tr rs tr1, MultipleMonitorStatus t p hashes fuel tr = some (rs, tr1) →
      ∀ r ∈ rs, r.Message = defineStatus r.Status) ∧
    (∀ assets fuel tr rs tr1,
      MultipleBroadcastAndMonitor t p assets fuel tr = some (.ok rs, tr1) →
      ∀ r ∈ rs, r.Message = defineStatus r.Status) := by
  refine ⟨?_, ?_, ?_, ?_⟩
  · intro h fuel tr r tr1 hm
    exact (MonitorStatus_ok_shape t p h fuel tr r tr1 hm).2.2
  · intro asset fuel tr r tr1 hm
    exact (BroadcastAndMonitor_ok_shape t p asset fuel tr r tr1 hm).2
  · intro hashes fuel tr rs tr1 hm
    refine MultipleMonitorStatus_loop_inv t p fuel (fun r => r.Message = defineStatus r.Status)
      ?_ hashes [] tr rs tr1 hm (by simp)
    intro h tr0 r tr2 hms
    exact (MonitorStatus_ok_shape t p h fuel tr0 r tr2 hms).2.2
  · intro assets fuel tr rs tr1 hm
    refine MultipleBroadcastAndMonitor_loop_inv t p fuel
      (fun r => r.Message = defineStatus r.Status) ?_ assets [] tr rs tr1 hm (by simp)
    intro a tr0 r tr2 hms
    exact (BroadcastAndMonitor_ok_shape t p a fuel tr0 r tr2 hms).2

theorem record_invariant_witness :
    BroadcastAndMonitor (scripted chattyScript) NewPulse ⟨"ETH", 4500, 1678912345⟩ 1 [] =
      some (.ok ⟨"h", "CONFIRMED", "Transaction has been processed and confirmed"⟩,
        [Event.submit ⟨"ETH", 4500, 1678912345⟩, Event.check "h"]) ∧
    ("Transaction has been processed and confirmed" : String) = defineStatus "CONFIRMED" ∧
    MultipleBroadcastAndMonitor (scripted chattyScript) NewPulse [⟨"ETH", 4500, 1678912345⟩] 1 [] =
      some (.ok [⟨"h", "CONFIRMED", "Transaction has been processed and confirmed"⟩],
        [Event.submit ⟨"ETH", 4500, 1678912345⟩, Event.check "h"]) ∧
    (∀ r ∈ [(⟨"h", "CONFIRMED", "Transaction has been processed and confirmed"⟩ : txHashData)],
      r.Message = defineStatus r.Status) :=
  ⟨by decide,
   (record_invariant (scripted chattyScript) NewPulse).2.1 ⟨"ETH", 4500, 1678912345⟩ 1 []
     ⟨"h", "CONFIRMED", "Transaction has been processed and confirmed"⟩
     [Event.submit ⟨"ETH", 4500, 1678912345⟩, Event.check "h"] (by decide),
   by decide,
   (record_invariant (scripted chattyScript) NewPulse).2.2.2 [⟨"ETH", 4500, 1678912345⟩] 1 []
     [⟨"h", "CONFIRMED", "Transaction has been processed and confirmed"⟩]
     [Event.submit ⟨"ETH", 4500, 1678912345⟩, Event.check "h"] (by decide)⟩

/-! ## Classification of responses by status code -/

/-- C6: a response with a status code of 400 or more makes Broadcast and
BroadcastAndMonitor (at the submit request, or at any check request of its
monitoring stage) and MonitorStatus (at any check request) return an error,
whatever the body; MonitorStatus stops right after that check request, with no
sleep and no further check. A response below 400 is not rejected on its code:
the body is decoded, and the result is decided by the decoded body. -/
theorem status_code_classification (t : Transport) (p : pulse) :
    (∀ asset tr code body, (asset.Symbol ≠ "" ∧ asset.Price ≠ 0 ∧ asset.Timestamp ≠ 0) →
      t (tr ++ [Event.submit asset]) = .response code body → 400 ≤ code →
      Broadcast t asset tr =
        (.error (.wrap "broadcast failed" .badStatus), tr ++ [Event.submit asset]) ∧
      ∀ fuel, BroadcastAndMonitor t p asset fuel tr =
        some (.error (.wrap "broadcast failed" .badStatus), tr ++ [Event.submit asset])) ∧
    (∀ h tr k fuel code body, PendingFor t h p.pulse tr k →
      t (tr ++ pendingRounds h p.pulse k ++ [Event.check h]) = .response code body →
      400 ≤ code → k + 1 ≤ fuel →
      MonitorStatus t p h fuel tr =
        some (.error (.wrap "monitor status failed" .badStatus),
          tr ++ pendingRounds h p.pulse k ++ [Event.check h])) ∧
    (∀ asset tr c0 b0 d k fuel code body,
      (asset.Symbol ≠ "" ∧ asset.Price ≠ 0 ∧ asset.Timestamp ≠ 0) →
      t (tr ++ [Event.submit asset]) = .response c0 b0 → c0 < 400 →
      unmarshalTxHashData b0 = some d →
      PendingFor t d.TxHash p.pulse (tr ++ [Event.submit asset]) k →
      t (tr ++ [Event.submit asset] ++ pendingRounds d.TxHash p.pulse k ++
        [Event.check d.TxHash]) = .response code body →
      400 ≤ code → k + 1 ≤ fuel →
      ∃ e, BroadcastAndMonitor t p asset fuel tr =
        some (.error e, tr ++ [Event.submit asset] ++ pendingRounds d.TxHash p.pulse k ++
          [Event.check d.TxHash])) ∧
    (∀ asset tr code body, (asset.Symbol ≠ "" ∧ asset.Price ≠ 0 ∧ asset.Timestamp ≠ 0) →
      t (tr ++ [Event.submit asset]) = .response code body → code < 400 →
      (∀ r, Broadcast t asset tr = (.ok r, tr ++ [Event.submit asset]) ↔
        unmarshalBroadcast body = some r) ∧
      (∀ d fuel, unmarshalTxHashData body = some d →
        observable (BroadcastAndMonitor t p asset fuel tr) =
          observable (MonitorStatus t p d.TxHash fuel (tr ++ [Event.submit asset])))) ∧
    (∀ h tr fuel code body s, t (tr ++ [Event.check h]) = .response code body → code < 400 →
      unmarshalStatus body = some ⟨s⟩ → s ≠ StatusPending →
      MonitorStatus t p h (fuel + 1) tr =
        some (.ok ⟨h, s, defineStatus s⟩, tr ++ [Event.check h])) := by
  have hmon : ∀ h tr k fuel code body, PendingFor t h p.pulse tr k →
      t (tr ++ pendingRounds h p.pulse k ++ [Event.check h]) = .response code body →
      400 ≤ code → k + 1 ≤ fuel →
      MonitorStatus t p h fuel tr =
        some (.error (.wrap "monitor status failed" .badStatus),
          tr ++ pendingRounds h p.pulse k ++ [Event.check h]) := by
    intro h tr k fuel code body hp ht hc hf
    have e : fuel = k + ((fuel - (k + 1)) + 1) := by omega
    rw [e, MonitorStatus_pending_rounds t p h _ k tr hp,
      MonitorStatus_badStatus_step t p h _ _ code body ht hc]
  refine ⟨?_, hmon, ?_, ?_, ?_⟩
  · intro asset tr code body hval ht hc
    have hv := (Validate_ok_iff asset).2 hval
    constructor
    · simp [Broadcast, hv, asset_eta, ht, hc]
    · intro fuel
      simp [BroadcastAndMonitor, hv, asset_eta, ht, hc]
  · intro asset tr c0 b0 d k fuel code body hval ht0 hc0 hd hp ht hc hf
    have hv := (Validate_ok_iff asset).2 hval
    rw [BroadcastAndMonitor_decoded t p asset fuel tr c0 b0 d hv ht0 hc0 hd,
      hmon d.TxHash _ k fuel code body hp ht hc hf]
    exact ⟨_, rfl⟩
  · intro asset tr code body hval ht hc
    have hv := (Validate_ok_iff asset).2 hval
    have hc2 : ¬ code ≥ 400 := by omega
    constructor
    · intro r
      constructor
      · intro hb
        obtain ⟨_, _, c1, b1, ht1, _, hd1⟩ := Broadcast_ok_inv t asset tr r _ hb
        rw [ht] at ht1
        cases ht1
        exact hd1
      · intro hd
        exact Broadcast_ok_of t asset tr code body r hv ht hc hd
    · intro d fuel hd
      rw [BroadcastAndMonitor_decoded t p asset fuel tr code body d hv ht hc hd,
        observable_rebuild]
  · intro h tr fuel code body s ht hc hb hs
    exact MonitorStatus_terminal_step t p h fuel tr code body s ht hc hb hs

theorem status_code_classification_witness :
    Broadcast (scripted [.response 500 (hashBody "abc")]) ⟨"ETH", 4500, 1678912345⟩ [] =
      (.error (.wrap "broadcast failed" .badStatus), [Event.submit ⟨"ETH", 4500, 1678912345⟩]) ∧
    MonitorStatus (scripted [.response 200 (statusBody "PENDING"),
        .response 404 (statusBody "CONFIRMED"), .response 200 (statusBody "CONFIRMED")])
      NewPulse "h" 5 [] =
      some (.error (.wrap "monitor status failed" .badStatus),
        [Event.check "h", Event.sleep NewPulse.pulse, Event.check "h"]) ∧
    MonitorStatus (scripted [.response 399 (statusBody "DNE")]) NewPulse "h" (0 + 1) [] =
      some (.ok ⟨"h", "DNE", defineStatus "DNE"⟩, [Event.check "h"]) :=
  ⟨((status_code_classification (scripted [.response 500 (hashBody "abc")]) NewPulse).1
      ⟨"ETH", 4500, 1678912345⟩ [] 500 (hashBody "abc") ⟨by decide, by decide, by decide⟩
      (by decide) (by decide)).1,
   (status_code_classification (scripted [.response 200 (statusBody "PENDING"),
        .response 404 (statusBody "CONFIRMED"), .response 200 (statusBody "CONFIRMED")])
      NewPulse).2.1 "h" [] 1 5 404 (statusBody "CONFIRMED") (by decide) (by decide) (by decide)
      (by decide),
   (status_code_classification (scripted [.response 399 (statusBody "DNE")]) NewPulse).2.2.2.2
      "h" [] 0 399 (statusBody "DNE") "DNE" (by decide) (by decide) (by decide) (by decide)⟩

/-! ## MultipleBroadcast -/

theorem MultipleBroadcast_loop_ok (t : Transport) :
    ∀ (xs : List Asset) (acc : List broadcastResponse) (tr : Trace)
      (hs : List broadcastResponse) (tr2 : Trace), BroadcastsOk t xs tr hs tr2 →
      MultipleBroadcast.loop t xs acc tr = (.ok (acc ++ hs), tr2) := by
  intro xs
  induction xs with
  | nil =>
    intro acc tr hs tr2 hok
    obtain ⟨h1, h2⟩ := hok
    simp [MultipleBroadcast.loop, h1, h2]
  | cons a rest ih =>
    intro acc tr hs tr2 hok
    cases hs with
    | nil => exact absurd hok (by simp [BroadcastsOk])
    | cons h hs =>
      obtain ⟨h1, h2⟩ := hok
      have hb : Broadcast t a tr = (.ok h, (Broadcast t a tr).2) := Prod.ext h1 rfl
      rw [MultipleBroadcast.loop, hb]
      simp only
      rw [ih (acc ++ [h]) _ hs tr2 h2]
      simp [List.append_assoc]

theorem MultipleBroadcast_loop_ok_inv (t : Transport) :
    ∀ (xs : List Asset) (acc : List broadcastResponse) (tr : Trace)
      (r : List broadcastResponse) (tr2 : Trace),
      MultipleBroadcast.loop t xs acc tr = (.ok r, tr2) →
      ∃ hs, r = acc ++ hs ∧ BroadcastsOk t xs tr hs tr2 := by
  intro xs
  induction xs with
  | nil =>
    intro acc tr r tr2 hl
    simp only [MultipleBroadcast.loop, Prod.mk.injEq, Except.ok.injEq] at hl
    exact ⟨[], by simp [hl.1], rfl, hl.2.symm⟩
  | cons a rest ih =>
    intro acc tr r tr2 hl
    rw [MultipleBroadcast.loop] at hl
    cases hb : Broadcast t a tr with
    | mk o tr1 =>
      cases o with
      | error e => simp [hb] at hl
      | ok h =>
        simp only [hb] at hl
        obtain ⟨hs, hr, hok⟩ := ih (acc ++ [h]) tr1 r tr2 hl
        refine ⟨h :: hs, by simp [hr, List.append_assoc], ?_⟩
        simp only [BroadcastsOk, hb]
        exact ⟨trivial, hok⟩

theorem MultipleBroadcast_loop_append (t : Transport) :
    ∀ (pre : List Asset) (rest : List Asset) (acc : List broadcastResponse) (tr : Trace)
      (hs : List broadcastResponse) (tr1 : Trace), BroadcastsOk t pre tr hs tr1 →
      MultipleBroadcast.loop t (pre ++ rest) acc tr =
        MultipleBroadcast.loop t rest (acc ++ hs) tr1 := by
  intro pre
  induction pre with
  | nil =>
    intro rest acc tr hs tr1 hok
    obtain ⟨h1, h2⟩ := hok
    simp [h1, h2]
  | cons a pre ih =>
    intro rest acc tr hs tr1 hok
    cases hs with
    | nil => exact absurd hok (by simp [BroadcastsOk])
    | cons h hs =>
      obtain ⟨h1, h2⟩ := hok
      have hb : Broadcast t a tr = (.ok h, (Broadcast t a tr).2) := Prod.ext h1 rfl
      rw [List.cons_append, MultipleBroadcast.loop, hb]
      simp only
      rw [ih rest (acc ++ [h]) _ hs tr1 h2]
      simp [List.append_assoc]

theorem BroadcastsOk_length (t : Transport) :
    ∀ (xs : List Asset) (tr : Trace) (hs : List broadcastResponse) (tr2 : Trace),
      BroadcastsOk t xs tr hs tr2 → hs.length = xs.length := by
  intro xs
  induction xs with
  | nil => intro tr hs tr2 hok; simp [hok.1]
  | cons a rest ih =>
    intro tr hs tr2 hok
    cases hs with
    | nil => exact absurd hok (by simp [BroadcastsOk])
    | cons h hs =>
      simp [ih _ hs tr2 hok.2]

theorem BroadcastsOk_get (t : Transport) :
    ∀ (xs : List Asset) (tr : Trace) (hs : List broadcastResponse) (tr2 : Trace),
      BroadcastsOk t xs tr hs tr2 → ∀ (i : Nat) (a : Asset), xs.get? i = some a →
      ∃ h tr1, hs.get? i = some h ∧ (Broadcast t a tr1).1 = .ok h := by
  intro xs
  induction xs with
  | nil => intro tr hs tr2 _ i a hi; simp at hi
  | cons x rest ih =>
    intro tr hs tr2 hok i a hi
    cases hs with
    | nil => exact absurd hok (by simp [BroadcastsOk])
    | cons h hs =>
      cases i with
      | zero =>
        simp only [List.get?_cons_zero, Option.some.injEq] at hi
        subst hi
        exact ⟨h, tr, rfl, hok.1⟩
      | succ i =>
        simp only [List.get?_cons_succ] at hi
        obtain ⟨h2, tr1, hg, hb⟩ := ih _ hs tr2 hok.2 i a hi
        exact ⟨h2, tr1, by simpa using hg, hb⟩

/-- C3: MultipleBroadcast returns a hash list exactly when Broadcast succeeds on
every asset in turn, and the list then holds their hashes in input order, one
per asset; if Broadcast succeeds on the assets before some index and fails on
the asset at that index, MultipleBroadcast returns that error (wrapped) and no
hash list, and its history is the one the failing Broadcast left: nothing is
attempted on the assets after it. -/
theorem MultipleBroadcast_fail_fast (t : Transport) (assets : List Asset) (tr : Trace) :
    (∀ hs tr2, BroadcastsOk t assets tr hs tr2 ↔
      MultipleBroadcast t assets tr = (.ok hs, tr2)) ∧
    (∀ hs tr2, MultipleBroadcast t assets tr = (.ok hs, tr2) →
      hs.length = assets.length ∧
      ∀ (i : Nat) (a : Asset), assets.get? i = some a →
        ∃ h tr1, hs.get? i = some h ∧ (Broadcast t a tr1).1 = .ok h) ∧
    (∀ pre a post hs tr1 e tr2, assets = pre ++ a :: post → BroadcastsOk t pre tr hs tr1 →
      Broadcast t a tr1 = (.error e, tr2) →
      MultipleBroadcast t assets tr =
        (.error (.wrap "request failed multiple_broadcast" e), tr2)) := by
  have hiff : ∀ hs tr2, BroadcastsOk t assets tr hs tr2 ↔
      MultipleBroadcast t assets tr = (.ok hs, tr2) := by
    intro hs tr2
    constructor
    · intro hok
      simpa [MultipleBroadcast] using MultipleBroadcast_loop_ok t assets [] tr hs tr2 hok
    · intro hm
      obtain ⟨hs2, hr, hok⟩ := MultipleBroadcast_loop_ok_inv t assets [] tr hs tr2 hm
      simp only [List.nil_append] at hr
      rw [hr]; exact hok
  refine ⟨hiff, ?_, ?_⟩
  · intro hs tr2 hm
    have hok := (hiff hs tr2).2 hm
    exact ⟨BroadcastsOk_length t assets tr hs tr2 hok, BroadcastsOk_get t assets tr hs tr2 hok⟩
  · intro pre a post hs tr1 e tr2 hsplit hok hb
    rw [hsplit, MultipleBroadcast, MultipleBroadcast_loop_append t pre (a :: post) [] tr hs tr1 hok,
      MultipleBroadcast.loop, hb]

theorem MultipleBroadcast_fail_fast_witness :
    MultipleBroadcast (scripted [.response 200 (hashBody "h1"), .response 500 (hashBody "h2"),
        .response 200 (hashBody "h3")])
      [⟨"ETH", 4500, 1678912345⟩, ⟨"BTC", 4500, 1678912345⟩, ⟨"SOL", 4500, 1678912345⟩] [] =
      (.error (.wrap "request failed multiple_broadcast" (.wrap "broadcast failed" .badStatus)),
        [Event.submit ⟨"ETH", 4500, 1678912345⟩, Event.submit ⟨"BTC", 4500, 1678912345⟩]) :=
  (MultipleBroadcast_fail_fast (scripted [.response 200 (hashBody "h1"),
      .response 500 (hashBody "h2"), .response 200 (hashBody "h3")])
    [⟨"ETH", 4500, 1678912345⟩, ⟨"BTC", 4500, 1678912345⟩, ⟨"SOL", 4500, 1678912345⟩] []).2.2
    [⟨"ETH", 4500, 1678912345⟩] ⟨"BTC", 4500, 1678912345⟩ [⟨"SOL", 4500, 1678912345⟩]
    [⟨"h1"⟩] [Event.submit ⟨"ETH", 4500, 1678912345⟩] (.wrap "broadcast failed" .badStatus)
    [Event.submit ⟨"ETH", 4500, 1678912345⟩, Event.submit ⟨"BTC", 4500, 1678912345⟩]
    (by decide) (by decide) (by decide)

/-! ## MultipleMonitorStatus -/

/-- A run of MonitorStatus that returns has extended the history, and the first
thing it added is a check request for its hash. -/
theorem MonitorStatus_trace (t : Transport) (p : pulse) (h : String) :
    ∀ (fuel : Nat) (tr : Trace) (o : Except Err txHashData) (tr1 : Trace),
      MonitorStatus t p h fuel tr = some (o, tr1) → ∃ rest, tr1 = tr ++ Event.check h :: rest := by
  intro fuel
  induction fuel with
  | zero => intro tr o tr1 hm; simp [MonitorStatus] at hm
  | succ f ih =>
    intro tr o tr1 hm
    simp only [MonitorStatus] at hm
    cases ht : t (tr ++ [Event.check h]) with
    | failure =>
      simp only [ht, Option.some.injEq, Prod.mk.injEq] at hm
      exact ⟨[], hm.2.symm⟩
    | response code body =>
      simp only [ht] at hm
      by_cases hc : code ≥ 400
      · simp only [hc, if_true, Option.some.injEq, Prod.mk.injEq] at hm
        exact ⟨[], hm.2.symm⟩
      · simp only [hc, if_false] at hm
        cases hb : unmarshalStatus body with
        | none =>
          simp only [hb, Option.some.injEq, Prod.mk.injEq] at hm
          exact ⟨[], hm.2.symm⟩
        | some result =>
          simp only [hb] at hm
          by_cases hs : result.Status ≠ StatusPending
          · rw [if_pos hs] at hm
            simp only [Option.some.injEq, Prod.mk.injEq] at hm
            exact ⟨[], hm.2.symm⟩
          · rw [if_neg hs] at hm
            obtain ⟨rest, hr⟩ := ih _ o tr1 hm
            exact ⟨Event.sleep p.pulse :: Event.check h :: rest, by simp [hr, List.append_assoc]⟩

theorem MonitorsRun_cons_iff (t : Transport) (p : pulse) (fuel : Nat) (h : String)
    (rest : List String) (tr : Trace) (o : Except Err txHashData)
    (outs : List (Except Err txHashData)) (tr2 : Trace) :
    MonitorsRun t p fuel (h :: rest) tr (o :: outs) tr2 ↔
      ∃ tr1, MonitorStatus t p h fuel tr = some (o, tr1) ∧ MonitorsRun t p fuel rest tr1 outs tr2 := by
  simp only [MonitorsRun]
  cases hms : MonitorStatus t p h fuel tr with
  | none => simp
  | some x =>
    obtain ⟨o1, tr1⟩ := x
    simp only [Option.map_some', Option.some.injEq, Option.getD_some, Prod.mk.injEq]
    constructor
    · rintro ⟨h1, h2⟩
      exact ⟨tr1, ⟨h1, rfl⟩, h2⟩
    · rintro ⟨tr3, ⟨h1, h3⟩, h2⟩
      subst h3
      exact ⟨h1, h2⟩

theorem MultipleMonitorStatus_loop_run (t : Transport) (p : pulse) (fuel : Nat) :
    ∀ (hashes : List String) (acc : List txHashData) (tr : Trace)
      (outs : List (Except Err txHashData)) (tr2 : Trace),
      MonitorsRun t p fuel hashes tr outs tr2 →
      MultipleMonitorStatus.loop t p fuel hashes acc tr = some (acc ++ successes outs, tr2) := by
  intro hashes
  induction hashes with
  | nil =>
    intro acc tr outs tr2 hrun
    obtain ⟨h1, h2⟩ := hrun
    simp [MultipleMonitorStatus.loop, successes, h1, h2]
  | cons h rest ih =>
    intro acc tr outs tr2 hrun
    cases outs with
    | nil => exact absurd hrun (by simp [MonitorsRun])
    | cons o outs =>
      obtain ⟨tr1, hms, hrest⟩ := (MonitorsRun_cons_iff t p fuel h rest tr o outs tr2).1 hrun
      rw [MultipleMonitorStatus.loop, hms]
      cases o with
      | error e =>
        simp only
        rw [ih acc tr1 outs tr2 hrest]
        simp [successes, Except.toOption]
      | ok status =>
        simp only
        rw [ih _ tr1 outs tr2 hrest]
        have hshape := MonitorStatus_ok_shape t p h fuel tr status tr1 hms
        cases status
        simp only at hshape
        simp [successes, Except.toOption, hshape.1, List.append_assoc]

theorem MonitorsRun_facts (t : Transport) (p : pulse) (fuel : Nat) :
    ∀ (hashes : List String) (tr : Trace) (outs : List (Except Err txHashData)) (tr2 : Trace),
      MonitorsRun t p fuel hashes tr outs tr2 →
      outs.length = hashes.length ∧
      List.Sublist ((successes outs).map txHashData.TxHash) hashes ∧
      (∃ added, tr2 = tr ++ added ∧ ∀ h ∈ hashes, Event.check h ∈ added) := by
  intro hashes
  induction hashes with
  | nil =>
    intro tr outs tr2 hrun
    obtain ⟨h1, h2⟩ := hrun
    subst h1
    exact ⟨rfl, by simp [successes], [], by simp [h2], by simp⟩
  | cons h rest ih =>
    intro tr outs tr2 hrun
    cases outs with
    | nil => exact absurd hrun (by simp [MonitorsRun])
    | cons o outs =>
      obtain ⟨tr1, hms, hrest⟩ := (MonitorsRun_cons_iff t p fuel h rest tr o outs tr2).1 hrun
      obtain ⟨hlen, hsub, added, hadd, hmem⟩ := ih tr1 outs tr2 hrest
      obtain ⟨more, hmore⟩ := MonitorStatus_trace t p h fuel tr o tr1 hms
      refine ⟨by simp [hlen], ?_, Event.check h :: more ++ added, ?_, ?_⟩
      · cases o with
        | error e =>
          have : successes (Except.error e :: outs) = successes outs := by
            simp [successes, Except.toOption]
          rw [this]
          exact List.Sublist.cons h hsub
        | ok status =>
          have hshape := MonitorStatus_ok_shape t p h fuel tr status tr1 hms
          have : successes (Except.ok status :: outs) = status :: successes outs := by
            simp [successes, Except.toOption]
          rw [this, List.map_cons, hshape.1]
          exact List.Sublist.cons₂ h hsub
      · rw [hadd, hmore]; simp [List.append_assoc]
      · intro x hx
        rcases List.mem_cons.1 hx with hx | hx
        · subst hx; simp
        · have := hmem x hx
          simp [this]

/-- C4: when every individual MonitorStatus call returns, MultipleMonitorStatus
returns (it has no error result) exactly the records of the calls that
succeeded, in input order, the failed ones left out; every input hash is
checked, also after an earlier one failed; the result is no longer than the
input, and it is empty when the input is empty or every call failed. -/
theorem MultipleMonitorStatus_best_effort (t : Transport) (p : pulse) (hashes : List String)
    (fuel : Nat) (tr : Trace) (outs : List (Except Err txHashData)) (tr2 : Trace)
    (hrun : MonitorsRun t p fuel hashes tr outs tr2) :
    MultipleMonitorStatus t p hashes fuel tr = some (successes outs, tr2) ∧
    outs.length = hashes.length ∧
    (successes outs).length ≤ hashes.length ∧
    List.Sublist ((successes outs).map txHashData.TxHash) hashes ∧
    (∃ added, tr2 = tr ++ added ∧ ∀ h ∈ hashes, Event.check h ∈ added) ∧
    (hashes = [] → successes outs = []) ∧
    ((∀ o ∈ outs, ∃ e, o = .error e) → successes outs = []) := by
  obtain ⟨hlen, hsub, hadd⟩ := MonitorsRun_facts t p fuel hashes tr outs tr2 hrun
  refine ⟨?_, hlen, ?_, hsub, hadd, ?_, ?_⟩
  · simpa [MultipleMonitorStatus] using MultipleMonitorStatus_loop_run t p fuel hashes [] tr outs tr2 hrun
  · rw [← hlen]
    exact List.length_filterMap_le _ _
  · intro hnil
    subst hnil
    have : outs = [] := List.length_eq_zero.1 (by simpa using hlen)
    simp [this, successes]
  · intro hall
    simp only [successes, List.filterMap_eq_nil_iff]
    intro o ho
    obtain ⟨e, he⟩ := hall o ho
    simp [he, Except.toOption]

theorem MultipleMonitorStatus_best_effort_witness :
    MonitorsRun (scripted [.response 500 (statusBody "CONFIRMED"),
        .response 200 (statusBody "CONFIRMED")]) NewPulse 1 ["h1", "h2"] []
      [.error (.wrap "monitor status failed" .badStatus),
        .ok ⟨"h2", "CONFIRMED", MessageConfirmed⟩]
      [Event.check "h1", Event.check "h2"] ∧
    MultipleMonitorStatus (scripted [.response 500 (statusBody "CONFIRMED"),
        .response 200 (statusBody "CONFIRMED")]) NewPulse ["h1", "h2"] 1 [] =
      some ([⟨"h2", "CONFIRMED", MessageConfirmed⟩], [Event.check "h1", Event.check "h2"]) :=
  ⟨by decide,
   (MultipleMonitorStatus_best_effort (scripted [.response 500 (statusBody "CONFIRMED"),
        .response 200 (statusBody "CONFIRMED")]) NewPulse ["h1", "h2"] 1 []
      [.error (.wrap "monitor status failed" .badStatus),
        .ok ⟨"h2", "CONFIRMED", MessageConfirmed⟩]
      [Event.check "h1", Event.check "h2"] (by decide)).1⟩

end Pulse
